import Mathlib

/-!
Verification development for the GoogleChatBot library
(`src/GoogleChatBot.js`): a client for posting messages to a chat-room
webhook endpoint plus a registry of named clients.

The JavaScript source is shallowly embedded: strings are `List Char`
(wrapped in `String` at the interface), the `request` transport is
represented by the request record the code builds and by the pure
callback that settles the returned promise, and `Math.random()*16|0`
draws are an explicit stream `Nat → Fin 16`.
-/

namespace ChatBot

/-- JavaScript primitive values appearing in proxy configuration fields:
a field may be absent (`undefined`), a string, or a number; string
concatenation renders `undefined` as the literal text `"undefined"`. -/
inductive JsVal where
  | undef : JsVal
  | str : String → JsVal
  | num : Nat → JsVal
deriving DecidableEq, Repr

/-- How a `JsVal` renders when concatenated into a JavaScript string. -/
def JsVal.render : JsVal → String
  | .undef => "undefined"
  | .str s => s
  | .num n => toString n

/-- A character admitted inside a color token by the regex class
`[^\x7b\x7d]` of `_replaceColors`: anything but a brace. -/
def isInnerChar (c : Char) : Bool := c != '{' && c != '}'

/-- One attempt of the color-token regex at the current position: a
match requires `$` `{`, then a maximal brace-free run, then `}`.  On
success, returns the matched substring and the remainder of the text
after it. -/
def goStep : List Char → Option (List Char × List Char)
  | '$' :: '{' :: rest =>
    match rest.dropWhile isInnerChar with
    | '}' :: tail =>
      some ('$' :: '{' :: (rest.takeWhile isInnerChar ++ ['}']), tail)
    | _ => none
  | _ => none

/-- Fuel-indexed scan of the global regex over the text, as
`String.prototype.match` performs it: try the pattern at each position;
on success record the matched substring and resume after it, on failure
resume at the next position.  Fuel bounds the recursion; `jsMatchAll`
supplies enough fuel for it never to run out. -/
def goMatch : Nat → List Char → List (List Char)
  | 0, _ => []
  | _ + 1, [] => []
  | f + 1, c :: cs =>
    match goStep (c :: cs) with
    | some (m, tail) => m :: goMatch f tail
    | none => goMatch f cs

/-- All matches of the color-token regex in the text, in scan order, one
entry per occurrence (the JavaScript `text.match(regex)`, with `null`
rendered as the empty list). -/
def jsMatchAll (l : List Char) : List (List Char) := goMatch l.length l

/-- The token name extracted from a matched substring `$\x7bNAME\x7d`:
the source computes it as `match[i].replace(regex, '$1')`, which on a
full match of this shape strips the leading `$` `\x7b` and the trailing
`\x7d`. -/
def propOf (m : List Char) : List Char := (m.drop 2).dropLast

/-- Boolean prefix test on character lists. -/
def isPrefixList : List Char → List Char → Bool
  | [], _ => true
  | _ :: _, [] => false
  | p :: ps, c :: cs => p == c && isPrefixList ps cs

/-- `text.replace(pat, rep)` with a string pattern: replace the first
occurrence of `pat` in the text, if any (the replacement strings used
by the source contain no `$`, so JavaScript replacement patterns do not
arise). -/
def replaceFirst (pat rep : List Char) : List Char → List Char
  | [] => []
  | c :: cs =>
    if isPrefixList pat (c :: cs) then rep ++ (c :: cs).drop pat.length
    else c :: replaceFirst pat rep cs

/-- The fixed color table built in the `GoogleChatBot` constructor
(`this.CHAT_COLORS`), as an association list in assignment order. -/
def chatColorsInit : List (String × String) :=
  [("RED", "#d81111"), ("GREEN", "#1b9a19"), ("MAGENTA", "#e23aa7"),
   ("YELLOW", "#ffef1b"), ("BLUE", "#19239e"), ("CYAN", "#1ba9ff"),
   ("GREY", "#a5a5a5")]

/-- `colors.hasOwnProperty(prop)` followed by `colors[prop]`, as one
lookup: the color bound to a name, when the table has that own
property. -/
def colorLookup (colors : List (String × String)) (name : List Char) :
    Option (List Char) :=
  match colors with
  | [] => none
  | (k, v) :: rest =>
    if k.data = name then some v.data else colorLookup rest name

/-- The mutating loop of `_replaceColors`: for each matched token, when
its name is an own property of the color table, replace the first
occurrence of the token text in the current text by the color. -/
def replaceColorsLoop (colors : List (String × String)) :
    List (List Char) → List Char → List Char
  | [], text => text
  | m :: ms, text =>
    match colorLookup colors (propOf m) with
    | some col =>
      replaceColorsLoop colors ms
        (replaceFirst ('$' :: '{' :: (propOf m ++ ['}'])) col text)
    | none => replaceColorsLoop colors ms text

/-- `_replaceColors(text)` on character lists: match all tokens, then
run the replacement loop over them. -/
def replaceColorsList (colors : List (String × String)) (text : List Char) :
    List Char :=
  replaceColorsLoop colors (jsMatchAll text) text

/-- One chat client: the fields set by the `GoogleChatBot` constructor.
`proxy` is `false` until `setProxy` stores a proxy URL string. -/
structure GoogleChatBot where
  CHAT_COLORS : List (String × String)
  proxy : Option String
  url : String
deriving DecidableEq, Repr

/-- `new GoogleChatBot(url)`. -/
def GoogleChatBot.make (url : String) : GoogleChatBot :=
  { CHAT_COLORS := chatColorsInit, proxy := none, url := url }

/-- The `setProxy` configuration object `{proxy, port, user, password}`;
destructuring leaves absent fields `undefined`. -/
structure ProxyConfig where
  proxy : JsVal := .undef
  port : JsVal := .undef
  user : JsVal := .undef
  password : JsVal := .undef
deriving DecidableEq, Repr

/-- The proxy URL string `setProxy` builds:
`'http://' + user + ':' + password + '@' + proxy + ':' + port`. -/
def proxyUrl (c : ProxyConfig) : String :=
  "http://" ++ c.user.render ++ ":" ++ c.password.render ++ "@" ++
    c.proxy.render ++ ":" ++ c.port.render

/-- `setProxy(config)`: stores the built proxy URL string on the
client. -/
def GoogleChatBot.setProxy (bot : GoogleChatBot) (c : ProxyConfig) :
    GoogleChatBot :=
  { bot with proxy := some (proxyUrl c) }

/-- The `_replaceColors` method, using the instance's color table. -/
def GoogleChatBot.replaceColors (bot : GoogleChatBot) (text : String) :
    String :=
  ⟨replaceColorsList bot.CHAT_COLORS text.data⟩

/-- Color-token resolution as a standalone operation: every client
carries the identical constructor-built table, so the instance does not
matter. -/
def resolveColorTokens (text : String) : String :=
  ⟨replaceColorsList chatColorsInit text.data⟩

/-- A hexadecimal digit character as produced by `v.toString(16)` for a
value below 16. -/
def hexDigit (n : Nat) : Char :=
  if n < 10 then Char.ofNat (48 + n) else Char.ofNat (87 + n)

/-- The template string of `uuidv4`. -/
def uuidTemplate : List Char := "xxxxxxxx-xxxx-4xxx-yxxx-xxxxxxxxxxxx".data

/-- The per-character replacement of `uuidv4`: each `x` or `y` consumes
one random draw `r = Math.random()*16|0` (an integer in `0..15`, so the
stream has type `Nat → Fin 16`); an `x` becomes `r.toString(16)`, a `y`
becomes `(r & 0x3 | 0x8).toString(16)`; every other character is kept. -/
def uuidGo (rand : Nat → Fin 16) : Nat → List Char → List Char
  | _, [] => []
  | i, c :: cs =>
    if c = 'x' then hexDigit (rand i).val :: uuidGo rand (i + 1) cs
    else if c = 'y' then
      hexDigit (((rand i).val &&& 0x3) ||| 0x8) :: uuidGo rand (i + 1) cs
    else c :: uuidGo rand i cs

/-- `GoogleChatBot.uuidv4()`, with the random draws made explicit. -/
def uuidv4 (rand : Nat → Fin 16) : String := ⟨uuidGo rand 0 uuidTemplate⟩

/-- A JSON-serializable message payload, as built by the send
operations. -/
inductive Json where
  | str : String → Json
  | obj : List (String × Json) → Json
  | arr : List Json → Json

/-- The thread key sent as query parameter: `thread || uuidv4()`.  A
missing argument is `none`; the empty string is the one falsy string
value, so it also falls through to a fresh identifier. -/
def threadKeyOf (thread : Option String) (rand : Nat → Fin 16) : String :=
  match thread with
  | none => uuidv4 rand
  | some t => if t = "" then uuidv4 rand else t

/-- The options object `sendMsg` hands to the `request` transport:
proxy, url, `threadKey` query parameter, method and JSON body. -/
structure HttpRequest where
  proxy : Option String
  url : String
  threadKey : String
  method : String
  body : Json

/-- The response object the transport passes to the callback; the send
logic inspects only `statusCode`, and on failure the whole object is the
rejection value. -/
structure HttpResponse where
  statusCode : Nat
deriving DecidableEq, Repr

/-- How the promise returned by `sendMsg` settles. -/
inductive SendOutcome where
  | resolved : Json → SendOutcome
  | rejectedError : String → SendOutcome
  | rejectedResponse : HttpResponse → SendOutcome

/-- The request `sendMsg(data, thread)` issues: one POST to the
client's url, routed through `this.proxy`, with the payload as JSON
body and the thread key as the `threadKey` query parameter. -/
def GoogleChatBot.sendMsgRequest (bot : GoogleChatBot) (data : Json)
    (thread : Option String) (rand : Nat → Fin 16) : HttpRequest :=
  { proxy := bot.proxy, url := bot.url, threadKey := threadKeyOf thread rand,
    method := "POST", body := data }

/-- The transport callback of `sendMsg`:
`if (!error && response.statusCode == 200) resolve(body) else
reject(error || response)`.  A transport error is `some e` (JavaScript
error objects are truthy). -/
def GoogleChatBot.sendMsgSettle (error : Option String)
    (response : HttpResponse) (body : Json) : SendOutcome :=
  if error = none ∧ response.statusCode = 200 then .resolved body
  else
    match error with
    | some e => .rejectedError e
    | none => .rejectedResponse response

/-- `sendText(text, thread)`: the plain-text payload `{text}` handed to
`sendMsg`. -/
def GoogleChatBot.sendTextRequest (bot : GoogleChatBot) (text : String)
    (thread : Option String) (rand : Nat → Fin 16) : HttpRequest :=
  bot.sendMsgRequest (.obj [("text", .str text)]) thread rand

/-- The card structure `sendTextCard` wraps its text in:
`{cards:[{sections:[{widgets:[{textParagraph:{text}}]}]}]}`. -/
def cardPayload (text : String) : Json :=
  .obj [("cards", .arr [
    .obj [("sections", .arr [
      .obj [("widgets", .arr [
        .obj [("textParagraph", .obj [("text", .str text)])]])]])]])]

/-- `sendTextCard(text, thread)`: resolves color tokens in the text,
wraps the result in the card structure and hands it to `sendMsg`. -/
def GoogleChatBot.sendTextCardRequest (bot : GoogleChatBot) (text : String)
    (thread : Option String) (rand : Nat → Fin 16) : HttpRequest :=
  bot.sendMsgRequest (cardPayload (bot.replaceColors text)) thread rand

/-- One entry of the manager's `bots` configuration sequence. -/
structure BotConfig where
  name : String
  url : String
  proxy : Option ProxyConfig := none

/-- Insertion-ordered map `set`, as `Map.prototype.set`: an existing
key keeps its position and gets the new value; a new key is appended. -/
def mapSet (k : String) (v : GoogleChatBot) :
    List (String × GoogleChatBot) → List (String × GoogleChatBot)
  | [] => [(k, v)]
  | (k', v') :: rest =>
    if k' = k then (k, v) :: rest else (k', v') :: mapSet k v rest

/-- `Map.prototype.get`. -/
def mapGet (k : String) : List (String × GoogleChatBot) →
    Option GoogleChatBot
  | [] => none
  | (k', v') :: rest => if k' = k then some v' else mapGet k rest

/-- The registry: default proxy and the insertion-ordered name → client
map. -/
structure GoogleChatBotManager where
  baseProxy : Option ProxyConfig
  bots : List (String × GoogleChatBot)

/-- The client `registerBot` constructs for a config entry: a fresh
client for `config.url`, with `config.proxy || this.baseProxy` applied
when one is in effect. -/
def GoogleChatBotManager.newBotFor (m : GoogleChatBotManager)
    (config : BotConfig) : GoogleChatBot :=
  match config.proxy.orElse (fun _ => m.baseProxy) with
  | some p => (GoogleChatBot.make config.url).setProxy p
  | none => GoogleChatBot.make config.url

/-- `registerBot(name, config)`: store the newly constructed client
under the name. -/
def GoogleChatBotManager.registerBot (m : GoogleChatBotManager)
    (name : String) (config : BotConfig) : GoogleChatBotManager :=
  { m with bots := mapSet name (m.newBotFor config) m.bots }

/-- `new GoogleChatBotManager({bots, proxy})`: keep `proxy || false` as
the default proxy and register each entry of `bots || []` in sequence
order. -/
def GoogleChatBotManager.make (bots : Option (List BotConfig))
    (proxy : Option ProxyConfig) : GoogleChatBotManager :=
  (bots.getD []).foldl (fun m b => m.registerBot b.name b)
    { baseProxy := proxy, bots := [] }

/-- `getBot(name)`. -/
def GoogleChatBotManager.getBot (m : GoogleChatBotManager) (name : String) :
    Option GoogleChatBot :=
  mapGet name m.bots

/-- `botsList()`: the registered names in insertion order. -/
def GoogleChatBotManager.botsList (m : GoogleChatBotManager) : List String :=
  m.bots.map (·.1)

/-- `n` concatenated copies of a character list. -/
def repeatL (l : List Char) : Nat → List Char
  | 0 => []
  | n + 1 => l ++ repeatL l n

/-- `n` concatenated copies of a string. -/
def repeatStr (s : String) (n : Nat) : String := ⟨repeatL s.data n⟩

/-- A lower-case hexadecimal digit character, the alphabet of
`v.toString(16)` for `v < 16`. -/
def isHexDigitChar (c : Char) : Bool :=
  ('0' ≤ c && c ≤ '9') || ('a' ≤ c && c ≤ 'f')

/-- The claim's reading of the identifier template: position by
position, an `x` must hold a hexadecimal digit, a `y` one of `8`, `9`,
`a`, `b`, and any other template character (the dashes and the literal
`4`) must be reproduced verbatim; the lengths must agree. -/
def matchesUuidTemplate : List Char → List Char → Bool
  | [], [] => true
  | t :: ts, c :: cs =>
    (if t = 'x' then isHexDigitChar c
     else if t = 'y' then c = '8' || c = '9' || c = 'a' || c = 'b'
     else t = c) && matchesUuidTemplate ts cs
  | _, _ => false

/-! ## Scanner lemmas -/

theorem dropWhile_length_le (p : Char → Bool) :
    ∀ l : List Char, (l.dropWhile p).length ≤ l.length := by
  intro l
  induction l with
  | nil => simp [List.dropWhile]
  | cons c cs ih =>
    simp only [List.dropWhile]
    cases p c
    · simp
    · simp only [List.length_cons]
      omega

theorem dropWhile_all_append (p : Char → Bool) (a b : List Char)
    (h : ∀ c ∈ a, p c = true) :
    (a ++ b).dropWhile p = b.dropWhile p := by
  induction a with
  | nil => rfl
  | cons c cs ih =>
    have hc : p c = true := h c (by simp)
    simp only [List.cons_append, List.dropWhile, hc]
    exact ih (fun x hx => h x (by simp [hx]))

theorem takeWhile_all_append (p : Char → Bool) (a b : List Char)
    (h : ∀ c ∈ a, p c = true) :
    (a ++ b).takeWhile p = a ++ b.takeWhile p := by
  induction a with
  | nil => rfl
  | cons c cs ih =>
    have hc : p c = true := h c (by simp)
    simp only [List.cons_append, List.takeWhile, hc]
    exact congrArg (c :: ·) (ih (fun x hx => h x (by simp [hx])))

theorem goStep_some_shape (l m tail : List Char)
    (h : goStep l = some (m, tail)) :
    ∃ rest, l = '$' :: '{' :: rest ∧
      rest.dropWhile isInnerChar = '}' :: tail ∧
      m = '$' :: '{' :: (rest.takeWhile isInnerChar ++ ['}']) := by
  unfold goStep at h
  split at h
  case _ rest =>
    split at h
    case _ tail' heq =>
      obtain ⟨hm, ht⟩ := Prod.mk.injEq .. ▸ Option.some.injEq .. ▸ h
      exact ⟨rest, rfl, by rw [heq, ht], hm.symm⟩
    case _ => exact absurd h (by simp)
  case _ => exact absurd h (by simp)

theorem goStep_tail_lt (l m tail : List Char)
    (h : goStep l = some (m, tail)) : tail.length + 3 ≤ l.length := by
  obtain ⟨rest, hl, hdrop, -⟩ := goStep_some_shape l m tail h
  have h1 : ('}' :: tail).length ≤ rest.length := by
    rw [← hdrop]; exact dropWhile_length_le _ _
  simp only [List.length_cons] at h1
  simp [hl]; omega

theorem goMatch_fuel_eq :
    ∀ f₁ f₂ l, l.length ≤ f₁ → l.length ≤ f₂ →
      goMatch f₁ l = goMatch f₂ l := by
  intro f₁
  induction f₁ with
  | zero =>
    intro f₂ l h1 _
    have hl : l = [] := List.eq_nil_of_length_eq_zero (Nat.le_zero.mp h1)
    subst hl
    cases f₂ <;> rfl
  | succ f ih =>
    intro f₂ l h1 h2
    cases l with
    | nil => cases f₂ <;> rfl
    | cons c cs =>
      obtain ⟨f₂', rfl⟩ : ∃ k, f₂ = k + 1 :=
        ⟨f₂ - 1, by simp at h2; omega⟩
      simp only [goMatch]
      cases hstep : goStep (c :: cs) with
      | none =>
        have hlen : cs.length ≤ f := by simp at h1; omega
        have hlen2 : cs.length ≤ f₂' := by simp at h2; omega
        simp [ih f₂' cs hlen hlen2]
      | some p =>
        obtain ⟨m, tail⟩ := p
        have := goStep_tail_lt _ _ _ hstep
        simp only [List.length_cons] at h1 h2 this
        exact congrArg (m :: ·) (ih f₂' tail (by omega) (by omega))

theorem jsMatchAll_cons_none (c : Char) (cs : List Char)
    (h : goStep (c :: cs) = none) : jsMatchAll (c :: cs) = jsMatchAll cs := by
  simp [jsMatchAll, goMatch, h]

theorem jsMatchAll_cons_some (c : Char) (cs m tail : List Char)
    (h : goStep (c :: cs) = some (m, tail)) :
    jsMatchAll (c :: cs) = m :: jsMatchAll tail := by
  have hlt := goStep_tail_lt _ _ _ h
  simp only [List.length_cons] at hlt
  simp only [jsMatchAll, List.length_cons, goMatch, h]
  exact congrArg (m :: ·) (goMatch_fuel_eq _ _ _ (by omega) (by omega))

theorem goStep_token (nameL rest : List Char)
    (h : ∀ c ∈ nameL, isInnerChar c = true) :
    goStep ('$' :: '{' :: (nameL ++ '}' :: rest)) =
      some ('$' :: '{' :: (nameL ++ ['}']), rest) := by
  have hdrop : (nameL ++ '}' :: rest).dropWhile isInnerChar = '}' :: rest := by
    rw [dropWhile_all_append _ _ _ h]
    simp [List.dropWhile, isInnerChar]
  have htake : (nameL ++ '}' :: rest).takeWhile isInnerChar = nameL := by
    rw [takeWhile_all_append _ _ _ h]
    simp [List.takeWhile, isInnerChar]
  simp [goStep, hdrop, htake]

theorem jsMatchAll_token_cons (nameL rest : List Char)
    (h : ∀ c ∈ nameL, isInnerChar c = true) :
    jsMatchAll (('$' :: '{' :: (nameL ++ ['}'])) ++ rest) =
      ('$' :: '{' :: (nameL ++ ['}'])) :: jsMatchAll rest := by
  have hshape : ('$' :: '{' :: (nameL ++ ['}'])) ++ rest =
      '$' :: '{' :: (nameL ++ '}' :: rest) := by simp
  rw [hshape]
  exact jsMatchAll_cons_some _ _ _ _ (goStep_token nameL rest h)

/-! ## Replacement-loop lemmas -/

theorem isPrefixList_self_append :
    ∀ l t : List Char, isPrefixList l (l ++ t) = true := by
  intro l
  induction l with
  | nil => intro t; rfl
  | cons c cs ih => intro t; simp [isPrefixList, ih t]

theorem replaceFirst_at_head (p : Char) (ps rep suffix : List Char) :
    replaceFirst (p :: ps) rep ((p :: ps) ++ suffix) = rep ++ suffix := by
  show replaceFirst (p :: ps) rep (p :: (ps ++ suffix)) = rep ++ suffix
  have h2 : p :: (ps ++ suffix) = (p :: ps) ++ suffix := rfl
  rw [replaceFirst, h2, isPrefixList_self_append, if_pos rfl, List.drop_left]

theorem replaceFirst_no_dollar_append (pre ps rep t : List Char)
    (h : '$' ∉ pre) :
    replaceFirst ('$' :: ps) rep (pre ++ t) =
      pre ++ replaceFirst ('$' :: ps) rep t := by
  induction pre with
  | nil => rfl
  | cons c cs ih =>
    have hc : c ≠ '$' := fun hc => h (by simp [hc])
    have hbe : ('$' == c) = false :=
      beq_eq_false_iff_ne.mpr (fun h' => hc h'.symm)
    have hpre : isPrefixList ('$' :: ps) (c :: (cs ++ t)) = false := by
      simp [isPrefixList, hbe]
    simp only [List.cons_append, replaceFirst, List.append_eq, hpre]
    exact congrArg (c :: ·) (ih (fun hm => h (by simp [hm])))

theorem dropLast_append_one :
    ∀ (a : List Char) (x : Char), (a ++ [x]).dropLast = a := by
  intro a x
  induction a with
  | nil => rfl
  | cons c cs ih =>
    cases cs with
    | nil => rfl
    | cons d ds => exact congrArg (c :: ·) ih

theorem propOf_token (nameL : List Char) :
    propOf ('$' :: '{' :: (nameL ++ ['}'])) = nameL := by
  simp only [propOf, List.drop]
  exact dropLast_append_one nameL '}'

theorem jsMatchAll_repeat (nameL : List Char)
    (hinner : ∀ c ∈ nameL, isInnerChar c = true) (n : Nat) :
    jsMatchAll (repeatL ('$' :: '{' :: (nameL ++ ['}'])) n) =
      List.replicate n ('$' :: '{' :: (nameL ++ ['}'])) := by
  induction n with
  | zero => rfl
  | succ n ih =>
    simp only [repeatL, List.replicate]
    rw [jsMatchAll_token_cons nameL _ hinner, ih]

theorem loop_repeat (colors : List (String × String)) (nameL valL : List Char)
    (hlk : colorLookup colors nameL = some valL)
    (hval : '$' ∉ valL) :
    ∀ (m : Nat) (pre : List Char), '$' ∉ pre →
      replaceColorsLoop colors
          (List.replicate m ('$' :: '{' :: (nameL ++ ['}'])))
          (pre ++ repeatL ('$' :: '{' :: (nameL ++ ['}'])) m) =
        pre ++ repeatL valL m := by
  intro m
  induction m with
  | zero => intro pre _; simp [repeatL, replaceColorsLoop]
  | succ m ih =>
    intro pre hpre
    simp only [List.replicate, repeatL, replaceColorsLoop, propOf_token, hlk]
    rw [replaceFirst_no_dollar_append _ _ _ _ hpre,
      replaceFirst_at_head '$' _ valL _]
    have hpre' : '$' ∉ pre ++ valL := by
      simp only [List.mem_append]
      rintro (h | h)
      · exact hpre h
      · exact hval h
    calc replaceColorsLoop colors
          (List.replicate m ('$' :: '{' :: (nameL ++ ['}'])))
          (pre ++ (valL ++ repeatL ('$' :: '{' :: (nameL ++ ['}'])) m))
        = replaceColorsLoop colors
            (List.replicate m ('$' :: '{' :: (nameL ++ ['}'])))
            ((pre ++ valL) ++ repeatL ('$' :: '{' :: (nameL ++ ['}'])) m) := by
          rw [List.append_assoc]
      _ = (pre ++ valL) ++ repeatL valL m := ih (pre ++ valL) hpre'
      _ = pre ++ (valL ++ repeatL valL m) := by rw [List.append_assoc]

theorem replaceColors_repeat (colors : List (String × String))
    (nameL valL : List Char)
    (hlk : colorLookup colors nameL = some valL)
    (hinner : ∀ c ∈ nameL, isInnerChar c = true)
    (hval : '$' ∉ valL) (n : Nat) :
    replaceColorsList colors (repeatL ('$' :: '{' :: (nameL ++ ['}'])) n) =
      repeatL valL n := by
  unfold replaceColorsList
  rw [jsMatchAll_repeat nameL hinner n]
  simpa using loop_repeat colors nameL valL hlk hval n [] (by simp)

theorem loop_all_unrecognized (colors : List (String × String)) :
    ∀ (ms : List (List Char)) (text : List Char),
      (∀ m ∈ ms, colorLookup colors (propOf m) = none) →
      replaceColorsLoop colors ms text = text := by
  intro ms
  induction ms with
  | nil => intro text _; rfl
  | cons m ms ih =>
    intro text h
    have hm : colorLookup colors (propOf m) = none := h m (by simp)
    simp only [replaceColorsLoop, hm]
    exact ih text (fun x hx => h x (by simp [hx]))

/-! ## Identifier-generator lemmas -/

theorem hexDigit_mod16_hex :
    ∀ r : Fin 16, isHexDigitChar (hexDigit r.val) = true := by decide

theorem hexDigit_y_values :
    ∀ r : Fin 16,
      hexDigit ((r.val &&& 0x3) ||| 0x8) = '8' ∨
      hexDigit ((r.val &&& 0x3) ||| 0x8) = '9' ∨
      hexDigit ((r.val &&& 0x3) ||| 0x8) = 'a' ∨
      hexDigit ((r.val &&& 0x3) ||| 0x8) = 'b' := by decide

theorem uuidGo_length (rand : Nat → Fin 16) :
    ∀ (ts : List Char) (i : Nat), (uuidGo rand i ts).length = ts.length := by
  intro ts
  induction ts with
  | nil => intro i; rfl
  | cons t ts ih =>
    intro i
    by_cases hx : t = 'x'
    · simp [uuidGo, hx, ih]
    · by_cases hy : t = 'y' <;> simp [uuidGo, hx, hy, ih]

theorem uuidGo_matches (rand : Nat → Fin 16) :
    ∀ (ts : List Char) (i : Nat),
      matchesUuidTemplate ts (uuidGo rand i ts) = true := by
  intro ts
  induction ts with
  | nil => intro i; rfl
  | cons t ts ih =>
    intro i
    by_cases hx : t = 'x'
    · subst hx
      simp only [uuidGo, if_pos rfl, matchesUuidTemplate]
      simp [hexDigit_mod16_hex (rand i), ih (i + 1)]
    · by_cases hy : t = 'y'
      · subst hy
        simp only [uuidGo, if_neg hx, if_pos rfl, matchesUuidTemplate]
        rcases hexDigit_y_values (rand i) with h | h | h | h <;>
          simp [h, ih (i + 1)]
      · simp only [uuidGo, if_neg hx, if_neg hy, matchesUuidTemplate]
        simp [hx, hy, ih i]

/-! ## Registry lemmas -/

theorem mapGet_set_self (k : String) (v : GoogleChatBot) :
    ∀ l, mapGet k (mapSet k v l) = some v := by
  intro l
  induction l with
  | nil => simp [mapSet, mapGet]
  | cons p rest ih =>
    obtain ⟨k', v'⟩ := p
    by_cases hk : k' = k
    · simp [mapSet, mapGet, hk]
    · simp [mapSet, mapGet, hk, ih]

theorem mapSet_keys (k : String) (v : GoogleChatBot) :
    ∀ l, (mapSet k v l).map Prod.fst =
      if k ∈ l.map Prod.fst then l.map Prod.fst
      else l.map Prod.fst ++ [k] := by
  intro l
  induction l with
  | nil => simp [mapSet]
  | cons p rest ih =>
    obtain ⟨k', v'⟩ := p
    by_cases hk : k' = k
    · subst hk
      simp [mapSet]
    · by_cases hmem : k ∈ rest.map Prod.fst
      · simp [mapSet, hk, ih, hmem, Ne.symm hk]
      · simp [mapSet, hk, ih, hmem, Ne.symm hk]

theorem mem_mapSet_keys (k : String) (v : GoogleChatBot) (l : _) :
    k ∈ (mapSet k v l).map Prod.fst := by
  rw [mapSet_keys]
  split
  case isTrue h => exact h
  case isFalse _ => simp

theorem mapSet_keys_nodup (k : String) (v : GoogleChatBot)
    (l : List (String × GoogleChatBot))
    (h : (l.map Prod.fst).Nodup) : ((mapSet k v l).map Prod.fst).Nodup := by
  rw [mapSet_keys]
  split
  case isTrue _ => exact h
  case isFalse hmem => simp [List.nodup_append, h, hmem]

theorem registerBot_keeps_nodup (m : GoogleChatBotManager) (name : String)
    (config : BotConfig) (h : m.botsList.Nodup) :
    ((m.registerBot name config).botsList).Nodup :=
  mapSet_keys_nodup name _ m.bots h

theorem foldl_register_nodup :
    ∀ (l : List BotConfig) (m : GoogleChatBotManager),
      m.botsList.Nodup →
      ((l.foldl (fun m b => m.registerBot b.name b) m).botsList).Nodup := by
  intro l
  induction l with
  | nil => intro m h; exact h
  | cons b rest ih =>
    intro m h
    exact ih (m.registerBot b.name b) (registerBot_keeps_nodup m b.name b h)

theorem string_data_append (s t : String) :
    (s ++ t).data = s.data ++ t.data := by
  cases s
  cases t
  rfl

/-! ## Claim theorems -/

/-- C1: the promise returned by `sendMsg` fulfills with the parsed
response body exactly when the transport reports no error and the HTTP
status code is 200; on a transport error it rejects with that error, and
on a non-200 status without transport error it rejects with the raw
response object. -/
theorem sendMsg_settle_spec :
    ∀ (error : Option String) (response : HttpResponse) (body : Json),
      (GoogleChatBot.sendMsgSettle error response body = .resolved body ↔
        error = none ∧ response.statusCode = 200) ∧
      (∀ e, error = some e →
        GoogleChatBot.sendMsgSettle error response body = .rejectedError e) ∧
      (error = none → response.statusCode ≠ 200 →
        GoogleChatBot.sendMsgSettle error response body =
          .rejectedResponse response) := by
  intro error response body
  unfold GoogleChatBot.sendMsgSettle
  refine ⟨⟨fun h => ?_, fun h => ?_⟩, fun e he => ?_, fun he hs => ?_⟩
  · by_contra hc
    rw [if_neg hc] at h
    cases error <;> simp at h
  · rw [if_pos h]
  · subst he
    rw [if_neg (by simp)]
  · subst he
    rw [if_neg (by simp [hs])]

/-- Witness for C1: a 200 response without transport error resolves
with the body; a transport error rejects with the error; a 404 without
transport error rejects with the response object. -/
theorem sendMsg_settle_spec_witness :
    GoogleChatBot.sendMsgSettle none ⟨200⟩ (.str "ok") =
      .resolved (.str "ok") ∧
    GoogleChatBot.sendMsgSettle (some "ECONNREFUSED") ⟨200⟩ (.str "ok") =
      .rejectedError "ECONNREFUSED" ∧
    GoogleChatBot.sendMsgSettle none ⟨404⟩ (.str "ok") =
      .rejectedResponse ⟨404⟩ :=
  ⟨(sendMsg_settle_spec none ⟨200⟩ (.str "ok")).1.mpr ⟨rfl, rfl⟩,
   (sendMsg_settle_spec (some "ECONNREFUSED") ⟨200⟩ (.str "ok")).2.1
     "ECONNREFUSED" rfl,
   (sendMsg_settle_spec none ⟨404⟩ (.str "ok")).2.2 rfl (by decide)⟩

/-- C2 counterexample: the claim predicts that in one `resolveColorTokens`
pass only the first occurrence of a repeated recognized token is
substituted; on `"$\x7bRED\x7dx$\x7bRED\x7d"` the code substitutes both
occurrences, because the match list carries one entry per occurrence and
each entry replaces the first occurrence still present. -/
theorem replaceColors_first_only_counterexample :
    resolveColorTokens "$\x7bRED\x7dx$\x7bRED\x7d" = "#d81111x#d81111" ∧
    resolveColorTokens "$\x7bRED\x7dx$\x7bRED\x7d" ≠
      "#d81111x$\x7bRED\x7d" := by decide

/-- C2 (amended): each match-list entry substitutes only the first
occurrence of its token text still present, but the match list contains
one entry per occurrence, so one `resolveColorTokens` pass substitutes
every occurrence of a repeated recognized token: `n` copies of the token
of a recognized color symbol become `n` copies of its hex string. -/
theorem replaceColors_repeated_token_all :
    ∀ (name val : String),
      colorLookup chatColorsInit name.data = some val.data →
      ∀ n : Nat,
        resolveColorTokens (repeatStr ("$\x7b" ++ name ++ "\x7d") n) =
          repeatStr val n := by
  intro name val hlk n
  have hfacts : (∀ c ∈ name.data, isInnerChar c = true) ∧ '$' ∉ val.data := by
    have hlk' := hlk
    simp only [chatColorsInit, colorLookup] at hlk'
    split_ifs at hlk' with h1 h2 h3 h4 h5 h6 h7
    · obtain hv := Option.some.inj hlk'
      rw [← h1, ← hv]; exact ⟨by decide, by decide⟩
    · obtain hv := Option.some.inj hlk'
      rw [← h2, ← hv]; exact ⟨by decide, by decide⟩
    · obtain hv := Option.some.inj hlk'
      rw [← h3, ← hv]; exact ⟨by decide, by decide⟩
    · obtain hv := Option.some.inj hlk'
      rw [← h4, ← hv]; exact ⟨by decide, by decide⟩
    · obtain hv := Option.some.inj hlk'
      rw [← h5, ← hv]; exact ⟨by decide, by decide⟩
    · obtain hv := Option.some.inj hlk'
      rw [← h6, ← hv]; exact ⟨by decide, by decide⟩
    · obtain hv := Option.some.inj hlk'
      rw [← h7, ← hv]; exact ⟨by decide, by decide⟩
  have hdata : ("$\x7b" ++ name ++ "\x7d").data =
      '$' :: '{' :: (name.data ++ ['}']) := by
    rw [string_data_append, string_data_append]
    rfl
  have key : replaceColorsList chatColorsInit
      (repeatL ("$\x7b" ++ name ++ "\x7d").data n) = repeatL val.data n := by
    rw [hdata]
    exact replaceColors_repeat chatColorsInit name.data val.data hlk
      hfacts.1 hfacts.2 n
  exact congrArg String.mk key

/-- Witness for C2 (amended): three adjacent `RED` tokens all become the
`RED` hex string in a single pass. -/
theorem replaceColors_repeated_token_all_witness :
    colorLookup chatColorsInit "RED".data = some "#d81111".data ∧
    resolveColorTokens (repeatStr "$\x7bRED\x7d" 3) =
      repeatStr "#d81111" 3 :=
  ⟨by decide, replaceColors_repeated_token_all "RED" "#d81111" (by decide) 3⟩

/-- C3: each of the seven recognized color symbols resolves, as a lone
token, to exactly its hex string from the fixed table; the table is the
constant `chatColorsInit`, installed by the constructor, so it is
identical across client instances and `_replaceColors` behaves the same
on every constructed client. -/
theorem resolveColorTokens_recognized :
    resolveColorTokens "$\x7bRED\x7d" = "#d81111" ∧
    resolveColorTokens "$\x7bGREEN\x7d" = "#1b9a19" ∧
    resolveColorTokens "$\x7bMAGENTA\x7d" = "#e23aa7" ∧
    resolveColorTokens "$\x7bYELLOW\x7d" = "#ffef1b" ∧
    resolveColorTokens "$\x7bBLUE\x7d" = "#19239e" ∧
    resolveColorTokens "$\x7bCYAN\x7d" = "#1ba9ff" ∧
    resolveColorTokens "$\x7bGREY\x7d" = "#a5a5a5" ∧
    ∀ (url text : String),
      (GoogleChatBot.make url).CHAT_COLORS = chatColorsInit ∧
      (GoogleChatBot.make url).replaceColors text = resolveColorTokens text :=
  ⟨by decide, by decide, by decide, by decide, by decide, by decide,
   by decide, fun url text => ⟨rfl, rfl⟩⟩

/-- C4: a text whose every matched token has an unrecognized name — in
particular a text with no tokens at all, where the match list is empty —
is returned unchanged by `resolveColorTokens`. -/
theorem resolveColorTokens_unrecognized_id :
    ∀ text : String,
      (∀ m ∈ jsMatchAll text.data,
        colorLookup chatColorsInit (propOf m) = none) →
      resolveColorTokens text = text := by
  intro text h
  obtain ⟨data⟩ := text
  exact congrArg String.mk (loop_all_unrecognized chatColorsInit _ data h)

/-- Witness for C4: a text with one unrecognized token and no other
token is returned unchanged. -/
theorem resolveColorTokens_unrecognized_id_witness :
    (∀ m ∈ jsMatchAll "$\x7bFOO\x7d plain $\x7bred\x7d".data,
      colorLookup chatColorsInit (propOf m) = none) ∧
    resolveColorTokens "$\x7bFOO\x7d plain $\x7bred\x7d" =
      "$\x7bFOO\x7d plain $\x7bred\x7d" :=
  ⟨by decide,
   resolveColorTokens_unrecognized_id "$\x7bFOO\x7d plain $\x7bred\x7d"
     (by decide)⟩

/-- C5: `sendTextCard` resolves color tokens first and delegates to
`sendMsg` with a payload of exactly one card, one section and one
widget wrapping the resolved text; in particular the request body for
`"$\x7bRED\x7dalert$\x7bRED\x7d"` carries the text with every `RED`
token replaced by `#d81111`. -/
theorem sendTextCard_spec :
    ∀ (bot : GoogleChatBot) (url text : String) (thread : Option String)
      (rand : Nat → Fin 16),
      (bot.sendTextCardRequest text thread rand =
        bot.sendMsgRequest (cardPayload (bot.replaceColors text))
          thread rand) ∧
      (((GoogleChatBot.make url).sendTextCardRequest text thread rand).body =
        Json.obj [("cards", Json.arr [
          Json.obj [("sections", Json.arr [
            Json.obj [("widgets", Json.arr [
              Json.obj [("textParagraph",
                Json.obj [("text",
                  Json.str (resolveColorTokens text))])]])]])]])]) ∧
      (((GoogleChatBot.make url).sendTextCardRequest
          "$\x7bRED\x7dalert$\x7bRED\x7d" thread rand).body =
        Json.obj [("cards", Json.arr [
          Json.obj [("sections", Json.arr [
            Json.obj [("widgets", Json.arr [
              Json.obj [("textParagraph",
                Json.obj [("text",
                  Json.str "#d81111alert#d81111")])]])]])]])]) := by
  intro bot url text thread rand
  refine ⟨rfl, rfl, ?_⟩
  have h : resolveColorTokens "$\x7bRED\x7dalert$\x7bRED\x7d" =
      "#d81111alert#d81111" := by decide
  calc ((GoogleChatBot.make url).sendTextCardRequest
        "$\x7bRED\x7dalert$\x7bRED\x7d" thread rand).body
      = cardPayload (resolveColorTokens "$\x7bRED\x7dalert$\x7bRED\x7d") :=
        rfl
    _ = cardPayload "#d81111alert#d81111" := by rw [h]

/-- C6: `setProxy` stores exactly
`http://{user}:{password}@{proxy}:{port}` with each field rendered as
JavaScript string concatenation renders it; no presence validation is
performed, and a missing field contributes the literal text
`undefined` at its position (shown here for each of the four fields). -/
theorem setProxy_spec :
    ∀ (bot : GoogleChatBot) (c : ProxyConfig),
      ((bot.setProxy c).proxy =
        some ("http://" ++ c.user.render ++ ":" ++ c.password.render ++
          "@" ++ c.proxy.render ++ ":" ++ c.port.render)) ∧
      (∀ host port user pw : String,
        (bot.setProxy ⟨.str host, .str port, .str user, .str pw⟩).proxy =
          some ("http://" ++ user ++ ":" ++ pw ++ "@" ++ host ++ ":" ++
            port)) ∧
      (∀ port user pw : String,
        (bot.setProxy ⟨.undef, .str port, .str user, .str pw⟩).proxy =
          some ("http://" ++ user ++ ":" ++ pw ++ "@undefined:" ++ port)) ∧
      (∀ host user pw : String,
        (bot.setProxy ⟨.str host, .undef, .str user, .str pw⟩).proxy =
          some ("http://" ++ user ++ ":" ++ pw ++ "@" ++ host ++
            ":undefined")) ∧
      (∀ host port pw : String,
        (bot.setProxy ⟨.str host, .str port, .undef, .str pw⟩).proxy =
          some ("http://undefined:" ++ pw ++ "@" ++ host ++ ":" ++ port)) ∧
      (∀ host port user : String,
        (bot.setProxy ⟨.str host, .str port, .str user, .undef⟩).proxy =
          some ("http://" ++ user ++ ":undefined@" ++ host ++ ":" ++
            port)) := by
  intro bot c
  refine ⟨rfl, fun host port user pw => rfl, fun port user pw => ?_,
    fun host user pw => ?_, fun host port pw => ?_, fun host port user => ?_⟩
  · show some ("http://" ++ user ++ ":" ++ pw ++ "@" ++ "undefined" ++
      ":" ++ port) = _
    simp [String.append_assoc]
  · show some ("http://" ++ user ++ ":" ++ pw ++ "@" ++ host ++ ":" ++
      "undefined") = _
    simp [String.append_assoc]
  · show some ("http://" ++ "undefined" ++ ":" ++ pw ++ "@" ++ host ++
      ":" ++ port) = _
    simp [String.append_assoc]
  · show some ("http://" ++ user ++ ":" ++ "undefined" ++ "@" ++ host ++
      ":" ++ port) = _
    simp [String.append_assoc]

/-- C7: whatever the sequence of random draws, the generated identifier
is 36 characters long and matches the template
`xxxxxxxx-xxxx-4xxx-yxxx-xxxxxxxxxxxx`: hexadecimal digits at the `x`
and `y` positions, the literal `4` opening the third group, the `y`
digit restricted to `8`, `9`, `a`, `b`, and dashes reproduced verbatim;
it is the `threadKey` whenever `sendMsg` gets no thread argument. -/
theorem uuidv4_spec :
    ∀ rand : Nat → Fin 16,
      (uuidv4 rand).length = 36 ∧
      matchesUuidTemplate uuidTemplate (uuidv4 rand).data = true ∧
      ∀ (bot : GoogleChatBot) (data : Json),
        (bot.sendMsgRequest data none rand).threadKey = uuidv4 rand := by
  intro rand
  refine ⟨?_, uuidGo_matches rand uuidTemplate 0, fun bot data => rfl⟩
  show (uuidGo rand 0 uuidTemplate).length = 36
  rw [uuidGo_length]
  decide

/-- C8: registry construction registers the configured bots in sequence
order; each registered client gets the entry's own proxy when present,
else the registry default when configured, else no proxy.  The concrete
two-bot registry of the claim behaves as stated. -/
theorem registry_construction_spec :
    ((GoogleChatBotManager.make
        (some [⟨"a", "http://x", none⟩,
          ⟨"b", "http://y",
            some ⟨.str "p", .num 8080, .str "u", .str "pw"⟩⟩])
        none).getBot "a").map GoogleChatBot.proxy = some none ∧
    ((GoogleChatBotManager.make
        (some [⟨"a", "http://x", none⟩,
          ⟨"b", "http://y",
            some ⟨.str "p", .num 8080, .str "u", .str "pw"⟩⟩])
        none).getBot "b").map GoogleChatBot.proxy =
      some (some "http://u:pw@p:8080") ∧
    (GoogleChatBotManager.make
        (some [⟨"a", "http://x", none⟩,
          ⟨"b", "http://y",
            some ⟨.str "p", .num 8080, .str "u", .str "pw"⟩⟩])
        none).botsList = ["a", "b"] ∧
    (∀ (mgr : GoogleChatBotManager) (name : String) (config : BotConfig),
      (mgr.registerBot name config).getBot name =
        some (mgr.newBotFor config)) ∧
    (∀ (mgr : GoogleChatBotManager) (config : BotConfig) (p : ProxyConfig),
      config.proxy = some p →
      mgr.newBotFor config = (GoogleChatBot.make config.url).setProxy p) ∧
    (∀ (mgr : GoogleChatBotManager) (config : BotConfig) (p : ProxyConfig),
      config.proxy = none → mgr.baseProxy = some p →
      mgr.newBotFor config = (GoogleChatBot.make config.url).setProxy p) ∧
    (∀ (mgr : GoogleChatBotManager) (config : BotConfig),
      config.proxy = none → mgr.baseProxy = none →
      mgr.newBotFor config = GoogleChatBot.make config.url) := by
  refine ⟨by decide, by decide, by decide, fun mgr name config => ?_,
    fun mgr config p hp => ?_, fun mgr config p hp hb => ?_,
    fun mgr config hp hb => ?_⟩
  · exact mapGet_set_self name _ mgr.bots
  · unfold GoogleChatBotManager.newBotFor
    simp only [hp]
    rfl
  · unfold GoogleChatBotManager.newBotFor
    simp only [hp, hb]
    rfl
  · unfold GoogleChatBotManager.newBotFor
    simp only [hp, hb]
    rfl

/-- Witness for C8: the proxy-selection rules applied at concrete
inputs: an entry-level proxy wins, the default applies when the entry
has none, and no proxy is applied when neither exists. -/
theorem registry_construction_spec_witness :
    (GoogleChatBotManager.mk (some ⟨.str "d", .num 1, .str "du", .str "dp"⟩)
        []).newBotFor
        ⟨"n", "http://z", some ⟨.str "h", .num 2, .str "u", .str "w"⟩⟩ =
      (GoogleChatBot.make "http://z").setProxy
        ⟨.str "h", .num 2, .str "u", .str "w"⟩ ∧
    (GoogleChatBotManager.mk (some ⟨.str "d", .num 1, .str "du", .str "dp"⟩)
        []).newBotFor ⟨"n", "http://z", none⟩ =
      (GoogleChatBot.make "http://z").setProxy
        ⟨.str "d", .num 1, .str "du", .str "dp"⟩ ∧
    (GoogleChatBotManager.mk none []).newBotFor ⟨"n", "http://z", none⟩ =
      GoogleChatBot.make "http://z" :=
  ⟨registry_construction_spec.2.2.2.2.1 _ _ _ rfl,
   registry_construction_spec.2.2.2.2.2.1 _ _ _ rfl rfl,
   registry_construction_spec.2.2.2.2.2.2 _ _ rfl rfl⟩

/-- C9: registry names stay unique under every operation sequence:
construction yields duplicate-free names, `registerBot` preserves
duplicate-freeness, re-registering a name replaces the stored client
with the newly constructed one, and the re-registered name is listed
exactly once. -/
theorem registry_unique_names :
    (∀ (bots : Option (List BotConfig)) (proxy : Option ProxyConfig),
      ((GoogleChatBotManager.make bots proxy).botsList).Nodup) ∧
    (∀ (m : GoogleChatBotManager) (name : String) (config : BotConfig),
      m.botsList.Nodup → ((m.registerBot name config).botsList).Nodup) ∧
    (∀ (m : GoogleChatBotManager) (name : String) (c₁ c₂ : BotConfig),
      ((m.registerBot name c₁).registerBot name c₂).getBot name =
        some ((m.registerBot name c₁).newBotFor c₂)) ∧
    (∀ (m : GoogleChatBotManager) (name : String) (config : BotConfig),
      m.botsList.Nodup →
      ((m.registerBot name config).botsList).count name = 1) := by
  refine ⟨fun bots proxy => ?_, fun m name config h => ?_,
    fun m name c₁ c₂ => ?_, fun m name config h => ?_⟩
  · exact foldl_register_nodup (bots.getD []) ⟨proxy, []⟩ List.nodup_nil
  · exact registerBot_keeps_nodup m name config h
  · exact mapGet_set_self name _ _
  · exact List.count_eq_one_of_mem (registerBot_keeps_nodup m name config h)
      (mem_mapSet_keys name _ m.bots)

/-- Witness for C9: registering the same name twice on an empty registry
leaves the name listed exactly once, with the second client stored. -/
theorem registry_unique_names_witness :
    ((GoogleChatBotManager.mk none []).registerBot "a"
        ⟨"a", "http://x", none⟩).botsList.Nodup ∧
    (((GoogleChatBotManager.mk none []).registerBot "a"
        ⟨"a", "http://x", none⟩).registerBot "a"
        ⟨"a", "http://y", none⟩).getBot "a" =
      some (((GoogleChatBotManager.mk none []).registerBot "a"
        ⟨"a", "http://x", none⟩).newBotFor ⟨"a", "http://y", none⟩) ∧
    (((GoogleChatBotManager.mk none []).registerBot "a"
        ⟨"a", "http://x", none⟩).registerBot "a"
        ⟨"a", "http://y", none⟩).botsList.count "a" = 1 :=
  ⟨registry_unique_names.2.1 _ "a" _ List.nodup_nil,
   registry_unique_names.2.2.1 _ "a" _ _,
   registry_unique_names.2.2.2 _ "a" _
     (registry_unique_names.2.1 _ "a" _ List.nodup_nil)⟩

/-- C10: a send whose thread argument is the empty string — the one
falsy string value — behaves exactly as a send with the thread omitted:
the argument is ignored and a freshly generated identifier becomes the
`threadKey`; a non-empty thread is used as given. -/
theorem sendMsg_empty_thread :
    ∀ (bot : GoogleChatBot) (data : Json) (rand : Nat → Fin 16),
      bot.sendMsgRequest data (some "") rand =
        bot.sendMsgRequest data none rand ∧
      (bot.sendMsgRequest data (some "") rand).threadKey = uuidv4 rand ∧
      (∀ t : String, t ≠ "" →
        (bot.sendMsgRequest data (some t) rand).threadKey = t) := by
  intro bot data rand
  refine ⟨rfl, rfl, fun t ht => ?_⟩
  show threadKeyOf (some t) rand = t
  simp [threadKeyOf, ht]

/-- Witness for C10: a non-empty thread argument is kept as the
`threadKey`; the empty string falls through to the generated
identifier. -/
theorem sendMsg_empty_thread_witness :
    ((GoogleChatBot.make "http://w").sendMsgRequest (.str "m")
        (some "T1") (fun _ => 0)).threadKey = "T1" ∧
    ((GoogleChatBot.make "http://w").sendMsgRequest (.str "m")
        (some "") (fun _ => 0)).threadKey = uuidv4 (fun _ => 0) :=
  ⟨(sendMsg_empty_thread (GoogleChatBot.make "http://w") (.str "m")
      (fun _ => 0)).2.2 "T1" (by decide),
   (sendMsg_empty_thread (GoogleChatBot.make "http://w") (.str "m")
      (fun _ => 0)).2.1⟩

end ChatBot
